import Mathlib

/-!
Formal model of the benthic activity detection core
(`cv_scripts/benthic_activity_detection_v5.py`, with the incremental
background estimator from `cv_scripts/background_subtraction.py`).

Modelling conventions:

* Pixel coordinates, areas and confidences are rationals (the source uses
  Python floats; all the modelled logic only adds, subtracts, multiplies,
  divides and compares them).
* Euclidean distances are represented throughout by their *squares*
  (`distSq`).  Every use of a distance in the modelled code is a comparison
  against a nonnegative threshold, or a sort key: both are invariant under
  the strictly monotone map `x ↦ x ^ 2` on nonnegative reals, so a source
  comparison `dist ≤ r` becomes `distSq ≤ r ^ 2`, and the source's halving
  of a distance (`distances[b, t] *= 0.5`) becomes quartering of the square.
* The track `displacement` (a sum of square roots) and the derived
  `avg_speed` are modelled exactly, as real numbers.
* Image-level segmentation (OpenCV thresholding, morphology, connected
  components) is outside the model; the modelled functions take the blob
  lists those stages produce, exactly as the source functions do.
-/

/-- A single blob detection in one frame (`Blob` dataclass, v5 lines 46-57). -/
structure Blob where
  frame_idx : ℕ
  bbox : ℤ × ℤ × ℤ × ℤ
  centroid : ℚ × ℚ
  area : ℚ
  circularity : ℚ
  aspect_rat : ℚ
  confidence : ℚ := 1
  blob_type : String := "standard"
  coupled_with : Option ℕ := none
deriving DecidableEq, Repr

instance : Inhabited Blob :=
  ⟨{ frame_idx := 0, bbox := (0, 0, 0, 0), centroid := (0, 0), area := 0,
     circularity := 0, aspect_rat := 0 }⟩

/-- Multi-frame track of a moving organism (`Track` dataclass, v5 lines 60-84). -/
structure Track where
  track_id : ℕ
  frames : List ℕ := []
  bboxes : List (ℤ × ℤ × ℤ × ℤ) := []
  centroids : List (ℚ × ℚ) := []
  areas : List ℚ := []
  confidences : List ℚ := []
  is_valid : Bool := false
  last_seen_frame : ℕ := 0
  last_known_position : Option (ℚ × ℚ) := none
  is_resting : Bool := false
  rest_roi : Option (ℤ × ℤ × ℤ × ℤ) := none
  frames_since_detection : ℕ := 0
  position_history : List (ℚ × ℚ) := []
  coupled_detections : ℕ := 0
  total_detections : ℕ := 0
deriving DecidableEq, Repr

instance : Inhabited Track := ⟨{ track_id := 0 }⟩

/-- `Track.length` property (v5 lines 89-91). -/
def Track.length (t : Track) : ℕ := t.frames.length

/-- `Track.displacement` property (v5 lines 93-102): total Euclidean length of
the polyline through the detection centroids; `0.0` for fewer than two
centroids.  The square roots make this a real number; the guard branch is the
one the validation claims exercise. -/
noncomputable def Track.displacement (t : Track) : ℝ :=
  if t.centroids.length < 2 then 0
  else ((t.centroids.zip t.centroids.tail).map
      (fun pr => Real.sqrt (((pr.2.1 : ℝ) - (pr.1.1 : ℝ)) ^ 2
        + ((pr.2.2 : ℝ) - (pr.1.2 : ℝ)) ^ 2))).sum

/-- `Track.avg_speed` property (v5 lines 104-108). -/
noncomputable def Track.avg_speed (t : Track) : ℝ :=
  if t.centroids.length < 2 then 0
  else Track.displacement t / ((t.centroids.length - 1 : ℕ) : ℝ)

/-- Validation thresholds (`ValidationParams`, v5 lines 145-150). -/
structure ValidationParams where
  min_track_length : ℕ := 5
  min_displacement : ℝ := 10
  max_speed : ℝ := 30
  min_speed : ℝ := 1 / 10

/-- Tracking thresholds (`TrackingParams`, v5 lines 138-142).
`max_distance` and `rest_zone_radius` are distance thresholds (used squared in
the model); `max_skip_frames` is a frame count. -/
structure TrackingParams where
  max_distance : ℚ := 50
  max_skip_frames : ℕ := 60
  rest_zone_radius : ℚ := 100
deriving DecidableEq, Repr

/-- Detection parameters used by the modelled (post-segmentation) stages of
`detect_blobs` (`DetectionParams`, v5 lines 123-135).  The pure image-space
thresholds (`threshold`, `dark_threshold`, `bright_threshold`, `min_area`,
`max_area`, `min_circularity`, the aspect-ratio cap, `morph_kernel_size`)
parameterise the OpenCV segmentation stages only and are omitted. -/
structure DetectionParams where
  coupling_distance : ℚ := 100
  require_coupling : Bool := false
  coupling_boost : ℚ := 13 / 10
deriving DecidableEq, Repr

/-- `validate_track` (v5 lines 699-707), as the conjunction of the negations
of its three early-return guards. -/
def validate_track (t : Track) (p : ValidationParams) : Prop :=
  ¬ (Track.length t < p.min_track_length) ∧
  ¬ (Track.displacement t < p.min_displacement) ∧
  ¬ (Track.avg_speed t < p.min_speed ∨ p.max_speed < Track.avg_speed t)

/-- Squared Euclidean distance between two points. -/
def distSq (a b : ℚ × ℚ) : ℚ := (a.1 - b.1) ^ 2 + (a.2 - b.2) ^ 2

/-!
### Background estimator (`background_subtraction.py`, lines 308-399)

A frame is abstracted to a single rational sample value: the estimator treats
every pixel of a frame identically and independently, so one representative
value captures the accumulation logic.  `bgLoop` mirrors the read loop: it
walks the frame sequence, samples every `subsample_rate`-th frame while
`frame_count < frames_to_load`, and threads the running average
(`avg += (frame - avg) / n`, lines 360-367) together with `processed_count`.
-/
def bgLoop : List ℚ → ℕ → ℕ → ℕ → Option ℚ → ℕ → Option ℚ × ℕ
  | [], _, _, _, avg, n => (avg, n)
  | f :: rest, frame_count, frames_to_load, rate, avg, n =>
    if frame_count < frames_to_load then
      if frame_count % rate = 0 then
        match avg with
        | none => bgLoop rest (frame_count + 1) frames_to_load rate (some f) 1
        | some a => bgLoop rest (frame_count + 1) frames_to_load rate
            (some (a + (f - a) / (n + 1))) (n + 1)
      else bgLoop rest (frame_count + 1) frames_to_load rate avg n
    else (avg, n)

/-- Number of frames actually sampled by the estimator (`processed_count`). -/
def sampledFrameCount (frames : List ℚ) (frames_to_load : ℕ) (rate : ℕ) : ℕ :=
  (bgLoop frames 0 frames_to_load rate none 0).2

/-- `compute_average_background_from_video` (lines 308-399): run the
accumulation loop and fail with the source's `ValueError` message when no
frame was ever accumulated (lines 378-379). -/
def compute_average_background_from_video (frames : List ℚ) (frames_to_load : ℕ)
    (rate : ℕ) : Except String ℚ :=
  match (bgLoop frames 0 frames_to_load rate none 0).1 with
  | none => Except.error "No frames were processed"
  | some avg => Except.ok avg

/-- In `bgLoop`, the accumulator is `none` exactly while the processed count
is zero. -/
theorem bgLoop_none_iff (frames : List ℚ) (fc ftl rate : ℕ) (avg : Option ℚ) (n : ℕ)
    (h : avg = none ↔ n = 0) :
    (bgLoop frames fc ftl rate avg n).1 = none ↔ (bgLoop frames fc ftl rate avg n).2 = 0 := by
  induction frames generalizing fc avg n with
  | nil => simpa [bgLoop] using h
  | cons f rest ih =>
    simp only [bgLoop]
    split
    · split
      · match avg with
        | none => exact ih _ _ _ (by simp)
        | some a => exact ih _ _ _ (by simp)
      · exact ih _ _ _ h
    · simpa [bgLoop] using h

/-- Claim C8: if zero frames are sampled for background estimation, the
background estimator reports the configuration error
("No frames were processed") instead of producing a reference frame. -/
theorem backgroundEstimator_zero_frames_error (frames : List ℚ) (frames_to_load rate : ℕ)
    (h : sampledFrameCount frames frames_to_load rate = 0) :
    compute_average_background_from_video frames frames_to_load rate
      = Except.error "No frames were processed" := by
  have hnone : (bgLoop frames 0 frames_to_load rate none 0).1 = none :=
    (bgLoop_none_iff frames 0 frames_to_load rate none 0 (by simp)).2 h
  unfold compute_average_background_from_video
  rw [hnone]

/-- Witness for C8: an empty frame source samples zero frames and yields the
configuration error. -/
theorem backgroundEstimator_zero_frames_error_witness :
    sampledFrameCount [] 100 3 = 0 ∧
      compute_average_background_from_video [] 100 3
        = Except.error "No frames were processed" :=
  ⟨rfl, backgroundEstimator_zero_frames_error [] 100 3 rfl⟩

/-!
### Track matching state machine (`match_blobs_to_tracks`, v5 lines 610-696)
-/

/-- Truncation toward zero, Python's `int()` on a float. -/
def pyInt (q : ℚ) : ℤ := q.num.tdiv q.den

/-- The square rest region of interest computed when a track starts resting
(v5 lines 624-628 and 685-689). -/
def mkRestRoi (p : TrackingParams) (pos : ℚ × ℚ) : ℤ × ℤ × ℤ × ℤ :=
  (pyInt (pos.1 - p.rest_zone_radius), pyInt (pos.2 - p.rest_zone_radius),
   pyInt (2 * p.rest_zone_radius), pyInt (2 * p.rest_zone_radius))

/-- `is_blob_in_rest_zone` (v5 lines 600-607), with the radius comparison on
squared distances. -/
def is_blob_in_rest_zone (b : Blob) (t : Track) (p : TrackingParams) : Bool :=
  if t.is_resting = false ∨ t.last_known_position = none then false
  else decide (distSq b.centroid (t.last_known_position.getD (0, 0))
    ≤ p.rest_zone_radius ^ 2)

/-- Update applied to a track that matched a blob this frame
(v5 lines 660-673). -/
def applyMatch (t : Track) (b : Blob) (frame_idx : ℕ) : Track :=
  { t with
    frames := t.frames ++ [frame_idx],
    bboxes := t.bboxes ++ [b.bbox],
    centroids := t.centroids ++ [b.centroid],
    areas := t.areas ++ [b.area],
    confidences := t.confidences ++ [b.confidence],
    last_seen_frame := frame_idx,
    last_known_position := some b.centroid,
    frames_since_detection := 0,
    is_resting := false,
    rest_roi := none,
    position_history := t.position_history ++ [b.centroid],
    total_detections := t.total_detections + 1,
    coupled_detections :=
      t.coupled_detections + (if b.blob_type = "coupled" then 1 else 0) }

/-- Update applied to a track that received no match this frame: increment the
skip counter, drop the track (`none`) once the counter exceeds the budget,
and otherwise mark it resting when it is not yet resting and has a last known
position (v5 lines 620-629 and 680-690). -/
def stepUnmatched (p : TrackingParams) (t : Track) : Option Track :=
  let t1 : Track := { t with frames_since_detection := t.frames_since_detection + 1 }
  if t1.frames_since_detection ≤ p.max_skip_frames then
    if t1.is_resting = false ∧ t1.last_known_position.isSome then
      some { t1 with
        is_resting := true,
        rest_roi := some (mkRestRoi p (t1.last_known_position.getD (0, 0))) }
    else some t1
  else none

/-- Adjusted (squared) matching distance between a blob and a track: squared
Euclidean distance from the blob centroid to the track's last centroid
(v5 lines 632-634), quartered — the square of the source's halving — when the
track is resting and the blob falls inside its rest zone (v5 lines 636-641). -/
def adjDistSq (p : TrackingParams) (b : Blob) (t : Track) : ℚ :=
  let d := distSq b.centroid (t.centroids.getLastD (0, 0))
  if t.is_resting = true ∧ is_blob_in_rest_zone b t p = true then d * (1 / 4) else d

/-- Candidate (blob index, track index, adjusted squared distance) pairs whose
adjusted distance is within `max_distance` (v5 lines 648-652), enumerated in
the source's loop order. -/
def candidateMatchPairs (p : TrackingParams) (blobs : List Blob)
    (tracks : List Track) : List (ℕ × ℕ × ℚ) :=
  (List.range blobs.length).flatMap (fun bIdx =>
    (List.range tracks.length).filterMap (fun tIdx =>
      let d := adjDistSq p (blobs.getD bIdx default) (tracks.getD tIdx default)
      if d ≤ p.max_distance ^ 2 then some (bIdx, tIdx, d) else none))

/-- Stable sort of candidate pairs by (squared) distance
(`pairs.sort(key=lambda x: x[2])`, v5 line 653 and line 532). -/
def sortPairs (l : List (ℕ × ℕ × ℚ)) : List (ℕ × ℕ × ℚ) :=
  l.mergeSort (fun a b => decide (a.2.2 ≤ b.2.2))

/-- Greedy bipartite assignment over distance-sorted candidate pairs: accept a
pair when neither endpoint is claimed yet (v5 lines 655-656 and 676, and
identically lines 538-542 for blob coupling). -/
def greedyAssign : List (ℕ × ℕ × ℚ) → List ℕ → List ℕ → List (ℕ × ℕ)
  | [], _, _ => []
  | (i, j, _) :: rest, mi, mj =>
    if i ∉ mi ∧ j ∉ mj then (i, j) :: greedyAssign rest (i :: mi) (j :: mj)
    else greedyAssign rest mi mj

/-- `match_blobs_to_tracks` (v5 lines 610-696).  The source mutates matched
tracks inside the pair loop and appends them after the unmatched survivors;
since the distance matrix and rest-zone adjustments are computed before the
loop, this equals applying `applyMatch` per accepted pair at the end.  The
iteration order of the Python `set` of matched track indices is modelled as
ascending index (the output order is irrelevant to the claims, which quantify
over membership). -/
def match_blobs_to_tracks (blobs : List Blob) (active_tracks : List Track)
    (frame_idx : ℕ) (p : TrackingParams) : List Track × List Blob :=
  if active_tracks.length = 0 then ([], blobs)
  else if blobs.length = 0 then
    (active_tracks.filterMap (stepUnmatched p), [])
  else
    let matchedPairs := greedyAssign (sortPairs (candidateMatchPairs p blobs active_tracks)) [] []
    let matched_blobs := matchedPairs.map Prod.fst
    let matched_tracks := matchedPairs.map (fun pr => pr.2)
    let updated_unmatched :=
      ((List.range active_tracks.length).filter (fun tIdx => tIdx ∉ matched_tracks)).filterMap
        (fun tIdx => stepUnmatched p (active_tracks.getD tIdx default))
    let updated_matched :=
      (List.range active_tracks.length).filterMap (fun tIdx =>
        (matchedPairs.find? (fun pr => pr.2 = tIdx)).map (fun pr =>
          applyMatch (active_tracks.getD tIdx default) (blobs.getD pr.1 default) frame_idx))
    let unmatched_blobs :=
      ((List.range blobs.length).filter (fun bIdx => bIdx ∉ matched_blobs)).map
        (fun bIdx => blobs.getD bIdx default)
    (updated_unmatched ++ updated_matched, unmatched_blobs)

/-- Creation of a fresh track from an unmatched blob (v5 lines 331-344),
including the initial `add_position` call and detection counters. -/
def mkNewTrack (tid : ℕ) (frame_idx : ℕ) (b : Blob) : Track :=
  { track_id := tid, frames := [frame_idx], bboxes := [b.bbox],
    centroids := [b.centroid], areas := [b.area], confidences := [b.confidence],
    last_seen_frame := frame_idx,
    position_history := [b.centroid],
    total_detections := 1,
    coupled_detections := if b.blob_type = "coupled" then 1 else 0 }

/-- Tracking state threaded through the per-frame loop of
`subtract_background_and_detect` (v5 lines 289-291). -/
structure PipelineState where
  active : List Track
  completed : List Track
  next_track_id : ℕ
deriving DecidableEq, Repr

/-- One processed frame of the per-frame loop (v5 lines 326-347): match blobs
to tracks, then create a new track for every unmatched blob. -/
def processFrame (p : TrackingParams) (st : PipelineState) (blobs : List Blob)
    (frame_idx : ℕ) : PipelineState :=
  let mr := match_blobs_to_tracks blobs st.active frame_idx p
  { active := mr.1 ++ mr.2.enum.map (fun pr => mkNewTrack (st.next_track_id + pr.1) frame_idx pr.2),
    completed := st.completed,
    next_track_id := st.next_track_id + mr.2.length }

/-- The whole processed-frame loop, consuming the per-frame blob lists in
order (`processed_frame_idx` starts at `0`, v5 lines 295-366). -/
def runFrames (p : TrackingParams) (st : PipelineState) :
    List (List Blob) → ℕ → PipelineState
  | [], _ => st
  | bs :: rest, frame_idx =>
    runFrames p (processFrame p st bs frame_idx) rest (frame_idx + 1)

/-- Track ids of the final returned track list (v5 lines 376-381 and 398-417):
after the frame loop each still-active track has `is_valid` set by
`validate_track` and is appended to `completed_tracks`, which is what the
result dictionary serialises; setting `is_valid` does not change ids, so the
returned ids are those of `completed ++ active`. -/
def finalTrackIds (st : PipelineState) : List ℕ :=
  (st.completed ++ st.active).map Track.track_id

/-!
### Track validation (claim C2)
-/

/-- A track holding exactly one detection. -/
def oneDetectionTrack : Track :=
  { track_id := 1, frames := [0], bboxes := [(0, 0, 4, 4)], centroids := [(5, 5)],
    areas := [20], confidences := [1], last_seen_frame := 0,
    position_history := [(5, 5)], total_detections := 1 }

/-- Thresholds with a zero speed floor, zero displacement floor and a length
floor of one; all are representable values for the source's parameters. -/
def slackValidationParams : ValidationParams :=
  { min_track_length := 1, min_displacement := 0, max_speed := 30, min_speed := 0 }

/-- Counterexample to claim C2 as stated: a track with a single detection *is*
judged valid by `validate_track` for the threshold choice
`min_track_length = 1`, `min_displacement = 0`, `min_speed = 0`,
`max_speed = 30`, because its zero displacement and zero average speed pass
every non-strict guard. -/
theorem validate_track_one_detection_counterexample :
    Track.length oneDetectionTrack = 1 ∧
      validate_track oneDetectionTrack slackValidationParams := by
  have hd : Track.displacement oneDetectionTrack = 0 := by
    simp [Track.displacement, oneDetectionTrack]
  have hs : Track.avg_speed oneDetectionTrack = 0 := by
    simp [Track.avg_speed, oneDetectionTrack]
  refine ⟨rfl, ?_, ?_, ?_⟩
  · simp [Track.length, oneDetectionTrack, slackValidationParams]
  · rw [hd]; simp [slackValidationParams]
  · rw [hs]; simp [slackValidationParams]

/-- Claim C2 (amended): a track with fewer than two detections has
displacement `0` and average speed `0`, and is judged invalid by
`validate_track` for every choice of thresholds whose speed floor is
positive (the source default is `0.1`); with a zero speed floor, zero
displacement floor and a length floor of at most one, such a track passes
validation (see the counterexample). -/
theorem validate_track_short_track (t : Track) (p : ValidationParams)
    (hlen : t.centroids.length < 2) :
    Track.displacement t = 0 ∧ Track.avg_speed t = 0 ∧
      (0 < p.min_speed → ¬ validate_track t p) := by
  have hd : Track.displacement t = 0 := by simp [Track.displacement, hlen]
  have hs : Track.avg_speed t = 0 := by simp [Track.avg_speed, hlen]
  refine ⟨hd, hs, fun hpos hv => ?_⟩
  exact hv.2.2 (Or.inl (by rw [hs]; exact hpos))

/-- Witness for the amended C2 at the default thresholds. -/
theorem validate_track_short_track_witness :
    oneDetectionTrack.centroids.length < 2 ∧
      (Track.displacement oneDetectionTrack = 0 ∧
        Track.avg_speed oneDetectionTrack = 0 ∧
        (0 < ({} : ValidationParams).min_speed →
          ¬ validate_track oneDetectionTrack {})) :=
  ⟨by simp [oneDetectionTrack],
    validate_track_short_track oneDetectionTrack {} (by simp [oneDetectionTrack])⟩

/-!
### Structural lemmas about one matching round
-/

/-- Every pair accepted by the greedy assignment comes from the candidate
list. -/
theorem greedyAssign_mem : ∀ {l : List (ℕ × ℕ × ℚ)} {mi mj : List ℕ} {i j : ℕ},
    (i, j) ∈ greedyAssign l mi mj → ∃ d, (i, j, d) ∈ l := by
  intro l
  induction l with
  | nil => intro mi mj i j h; simp [greedyAssign] at h
  | cons hd tl ih =>
    intro mi mj i j h
    obtain ⟨a, b, k⟩ := hd
    rw [greedyAssign] at h
    by_cases hc : a ∉ mi ∧ b ∉ mj
    · rw [if_pos hc] at h
      rcases List.mem_cons.1 h with heq | hmem
      · exact ⟨k, by simp [Prod.ext_iff] at heq; simp [heq]⟩
      · obtain ⟨d, hd⟩ := ih hmem
        exact ⟨d, List.mem_cons_of_mem _ hd⟩
    · rw [if_neg hc] at h
      obtain ⟨d, hd⟩ := ih h
      exact ⟨d, List.mem_cons_of_mem _ hd⟩

/-- Candidate pairs index into the blob and track lists. -/
theorem candidateMatchPairs_mem_lt {p : TrackingParams} {blobs : List Blob}
    {tracks : List Track} {i j : ℕ} {d : ℚ}
    (h : (i, j, d) ∈ candidateMatchPairs p blobs tracks) :
    i < blobs.length ∧ j < tracks.length := by
  simp only [candidateMatchPairs, List.mem_flatMap, List.mem_filterMap,
    List.mem_range] at h
  obtain ⟨bIdx, hb, tIdx, ht, hif⟩ := h
  split at hif
  · simp only [Option.some.injEq, Prod.mk.injEq] at hif
    obtain ⟨h1, h2, -⟩ := hif
    exact ⟨h1 ▸ hb, h2 ▸ ht⟩
  · exact absurd hif (by simp)

/-- Every track in the output of a matching round arises from an input track,
either by the unmatched update (`stepUnmatched`) or by the matched update
(`applyMatch` with one of the frame's blobs). -/
theorem match_output_origin {blobs : List Blob} {active : List Track} {fi : ℕ}
    {p : TrackingParams} {u : Track}
    (hu : u ∈ (match_blobs_to_tracks blobs active fi p).1) :
    (∃ t ∈ active, stepUnmatched p t = some u) ∨
      (∃ t ∈ active, ∃ b ∈ blobs, u = applyMatch t b fi) := by
  unfold match_blobs_to_tracks at hu
  by_cases ha : active.length = 0
  · rw [if_pos ha] at hu; simp at hu
  rw [if_neg ha] at hu
  by_cases hb : blobs.length = 0
  · rw [if_pos hb] at hu
    obtain ⟨t, htmem, hstep⟩ := List.mem_filterMap.1 hu
    exact Or.inl ⟨t, htmem, hstep⟩
  rw [if_neg hb] at hu
  simp only [List.mem_append] at hu
  rcases hu with hu | hu
  · obtain ⟨tIdx, htmem, hstep⟩ := List.mem_filterMap.1 hu
    have hlt : tIdx < active.length := List.mem_range.1 (List.mem_of_mem_filter htmem)
    refine Or.inl ⟨active.getD tIdx default, ?_, hstep⟩
    rw [List.getD_eq_getElem _ _ hlt]
    exact List.getElem_mem hlt
  · obtain ⟨tIdx, htmem, hfind⟩ := List.mem_filterMap.1 hu
    obtain ⟨pr, hpr, happ⟩ := Option.map_eq_some'.1 hfind
    have hprmem : pr ∈ greedyAssign (sortPairs (candidateMatchPairs p blobs active)) [] [] :=
      List.mem_of_find?_eq_some hpr
    obtain ⟨i, j⟩ := pr
    obtain ⟨d', hd'⟩ := greedyAssign_mem hprmem
    have hcand : (i, j, d') ∈ candidateMatchPairs p blobs active :=
      (List.mergeSort_perm (candidateMatchPairs p blobs active) _).mem_iff.1 hd'
    obtain ⟨hilt, hjlt⟩ := candidateMatchPairs_mem_lt hcand
    refine Or.inr ⟨active.getD tIdx default, ?_, blobs.getD i default, ?_, happ.symm⟩
    · have hlt : tIdx < active.length := List.mem_range.1 htmem
      rw [List.getD_eq_getElem _ _ hlt]
      exact List.getElem_mem hlt
    · rw [List.getD_eq_getElem _ _ hilt]
      exact List.getElem_mem hilt

/-- Field-level description of a successful `stepUnmatched`. -/
theorem stepUnmatched_some {p : TrackingParams} {t u : Track}
    (h : stepUnmatched p t = some u) :
    u.frames_since_detection = t.frames_since_detection + 1 ∧
      u.frames_since_detection ≤ p.max_skip_frames ∧
      u.track_id = t.track_id ∧
      u.last_known_position = t.last_known_position ∧
      u.frames = t.frames ∧ u.bboxes = t.bboxes ∧ u.centroids = t.centroids ∧
      u.areas = t.areas ∧ u.confidences = t.confidences ∧
      u.position_history = t.position_history ∧
      (t.is_resting = false → u.is_resting = true →
        u.last_known_position.isSome = true) ∧
      (t.last_known_position = none → u.is_resting = t.is_resting ∧
        u.rest_roi = t.rest_roi) := by
  unfold stepUnmatched at h
  by_cases hbudget : t.frames_since_detection + 1 ≤ p.max_skip_frames
  · rw [if_pos hbudget] at h
    by_cases hcond : t.is_resting = false ∧ (t.last_known_position).isSome
    · rw [if_pos hcond] at h
      cases h
      refine ⟨rfl, hbudget, rfl, rfl, rfl, rfl, rfl, rfl, rfl, rfl, ?_, ?_⟩
      · intro _ _; exact hcond.2
      · intro hnone; rw [hnone] at hcond; simp at hcond
    · rw [if_neg hcond] at h
      cases h
      refine ⟨rfl, hbudget, rfl, rfl, rfl, rfl, rfl, rfl, rfl, rfl, ?_, fun _ => ⟨rfl, rfl⟩⟩
      intro hfalse htrue
      have ht' : t.is_resting = true := htrue
      rw [hfalse] at ht'
      exact absurd ht' (by simp)
  · rw [if_neg hbudget] at h
    exact absurd h (by simp)

/-- `stepUnmatched` drops a track exactly when the incremented counter
exceeds the skip budget. -/
theorem stepUnmatched_none_iff (p : TrackingParams) (t : Track) :
    stepUnmatched p t = none ↔
      p.max_skip_frames < t.frames_since_detection + 1 := by
  unfold stepUnmatched
  by_cases hbudget : t.frames_since_detection + 1 ≤ p.max_skip_frames
  · rw [if_pos hbudget]
    constructor
    · intro h; split at h <;> simp at h
    · intro h; exact absurd hbudget (not_le.2 h)
  · rw [if_neg hbudget]
    exact ⟨fun _ => not_le.1 hbudget, fun _ => rfl⟩

/-- The matched update clears the resting state in the same update. -/
theorem applyMatch_fields (t : Track) (b : Blob) (fi : ℕ) :
    (applyMatch t b fi).is_resting = false ∧ (applyMatch t b fi).rest_roi = none ∧
      (applyMatch t b fi).frames_since_detection = 0 ∧
      (applyMatch t b fi).track_id = t.track_id :=
  ⟨rfl, rfl, rfl, rfl⟩

/-- Claim C3: in a matching round, every surviving track either received no
match — and then, if its resting flag just turned on, its incremented skip
counter is positive and its last known position is set — or it matched a
blob, in which case its resting flag and rest ROI are cleared in the same
update. -/
theorem resting_transition_only_unmatched (p : TrackingParams) (blobs : List Blob)
    (active : List Track) (fi : ℕ) (u : Track)
    (hu : u ∈ (match_blobs_to_tracks blobs active fi p).1) :
    (∃ t ∈ active, stepUnmatched p t = some u ∧
        (t.is_resting = false → u.is_resting = true →
          0 < u.frames_since_detection ∧ u.last_known_position.isSome = true)) ∨
      (∃ t ∈ active, ∃ b ∈ blobs, u = applyMatch t b fi ∧
        u.is_resting = false ∧ u.rest_roi = none) := by
  rcases match_output_origin hu with ⟨t, ht, hstep⟩ | ⟨t, ht, b, hbm, heq⟩
  · obtain ⟨hfsd, -, -, -, -, -, -, -, -, -, hrest, -⟩ := stepUnmatched_some hstep
    refine Or.inl ⟨t, ht, hstep, fun hf hu' => ⟨?_, hrest hf hu'⟩⟩
    omega
  · subst heq
    exact Or.inr ⟨t, ht, b, hbm, rfl, rfl, rfl⟩

/-- Track that is already resting when a further frame goes unmatched: one
prior detection at (3, 4), a last known position and a rest ROI. -/
def restWitnessTrack : Track :=
  { track_id := 7, frames := [0], bboxes := [(0, 0, 2, 2)], centroids := [(3, 4)],
    areas := [40], confidences := [1], last_seen_frame := 0,
    last_known_position := some (3, 4), is_resting := true,
    rest_roi := some (-97, -96, 200, 200), frames_since_detection := 1,
    position_history := [(3, 4)], total_detections := 1 }

/-- `restWitnessTrack` after one more unmatched round under default tracking
parameters: only the skip counter moves. -/
def restWitnessUpdated : Track :=
  { restWitnessTrack with frames_since_detection := 2 }

/-- Witness for C3 on a concrete unmatched round. -/
theorem resting_transition_only_unmatched_witness :
    restWitnessUpdated ∈
        (match_blobs_to_tracks [] [restWitnessTrack] 1 {}).1 ∧
      ((∃ t ∈ [restWitnessTrack], stepUnmatched {} t = some restWitnessUpdated ∧
          (t.is_resting = false → restWitnessUpdated.is_resting = true →
            0 < restWitnessUpdated.frames_since_detection ∧
              restWitnessUpdated.last_known_position.isSome = true)) ∨
        (∃ t ∈ [restWitnessTrack], ∃ b ∈ ([] : List Blob),
          restWitnessUpdated = applyMatch t b 1 ∧
            restWitnessUpdated.is_resting = false ∧
            restWitnessUpdated.rest_roi = none)) :=
  ⟨by decide,
    resting_transition_only_unmatched {} [] [restWitnessTrack] 1 restWitnessUpdated
      (by decide)⟩

/-- Claim C4: after a matching round every surviving track's skip counter is
within the budget; the counter is `0` exactly on the matched update and is
incremented by `1` on the unmatched update; and the unmatched update drops a
track exactly when the incremented counter exceeds the budget. -/
theorem skip_frame_budget_invariant (p : TrackingParams) (blobs : List Blob)
    (active : List Track) (fi : ℕ) :
    (∀ u ∈ (match_blobs_to_tracks blobs active fi p).1,
        u.frames_since_detection ≤ p.max_skip_frames ∧
          ((∃ t ∈ active, ∃ b ∈ blobs, u = applyMatch t b fi ∧
              u.frames_since_detection = 0) ∨
            (∃ t ∈ active, stepUnmatched p t = some u ∧
              u.frames_since_detection = t.frames_since_detection + 1))) ∧
      (∀ t : Track, stepUnmatched p t = none ↔
        p.max_skip_frames < t.frames_since_detection + 1) := by
  constructor
  · intro u hu
    rcases match_output_origin hu with ⟨t, ht, hstep⟩ | ⟨t, ht, b, hbm, heq⟩
    · obtain ⟨hfsd, hle, -⟩ := stepUnmatched_some hstep
      exact ⟨hle, Or.inr ⟨t, ht, hstep, hfsd⟩⟩
    · subst heq
      exact ⟨Nat.zero_le _, Or.inl ⟨t, ht, b, hbm, rfl, rfl⟩⟩
  · exact stepUnmatched_none_iff p

/-- Track for the C4 witness: one detection, no last known position. -/
def skipWitnessTrack : Track :=
  { track_id := 9, frames := [2], bboxes := [(1, 1, 3, 3)], centroids := [(8, 8)],
    areas := [35], confidences := [1], last_seen_frame := 2,
    position_history := [(8, 8)], total_detections := 1 }

/-- `skipWitnessTrack` after one unmatched round: only the counter moves. -/
def skipWitnessUpdated : Track :=
  { skipWitnessTrack with frames_since_detection := 1 }

/-- Witness for C4 on a concrete unmatched round. -/
theorem skip_frame_budget_invariant_witness :
    skipWitnessUpdated ∈ (match_blobs_to_tracks [] [skipWitnessTrack] 5 {}).1 ∧
      (skipWitnessUpdated.frames_since_detection ≤ ({} : TrackingParams).max_skip_frames ∧
        ((∃ t ∈ [skipWitnessTrack], ∃ b ∈ ([] : List Blob),
            skipWitnessUpdated = applyMatch t b 5 ∧
              skipWitnessUpdated.frames_since_detection = 0) ∨
          (∃ t ∈ [skipWitnessTrack], stepUnmatched {} t = some skipWitnessUpdated ∧
            skipWitnessUpdated.frames_since_detection =
              t.frames_since_detection + 1))) :=
  ⟨by decide,
    (skip_frame_budget_invariant {} [] [skipWitnessTrack] 5).1 skipWitnessUpdated
      (by decide)⟩

/-!
### Parallel-sequence invariant (claim C9)
-/

/-- The five parallel per-detection sequences have equal length and the trail
history mirrors the centroid sequence. -/
def wfTrack (t : Track) : Prop :=
  t.bboxes.length = t.frames.length ∧ t.centroids.length = t.frames.length ∧
    t.areas.length = t.frames.length ∧ t.confidences.length = t.frames.length ∧
    t.position_history = t.centroids

/-- A freshly created track satisfies the parallel-sequence invariant. -/
theorem wfTrack_mkNewTrack (tid fi : ℕ) (b : Blob) : wfTrack (mkNewTrack tid fi b) := by
  simp [wfTrack, mkNewTrack]

/-- The matched update preserves the parallel-sequence invariant: all five
sequences and the trail history are extended together. -/
theorem wfTrack_applyMatch {t : Track} (h : wfTrack t) (b : Blob) (fi : ℕ) :
    wfTrack (applyMatch t b fi) := by
  obtain ⟨h1, h2, h3, h4, h5⟩ := h
  refine ⟨?_, ?_, ?_, ?_, ?_⟩ <;> simp [applyMatch, h1, h2, h3, h4, h5]

/-- The unmatched update preserves the parallel-sequence invariant: it leaves
all sequences untouched. -/
theorem wfTrack_stepUnmatched {p : TrackingParams} {t u : Track}
    (hstep : stepUnmatched p t = some u) (h : wfTrack t) : wfTrack u := by
  obtain ⟨-, -, -, -, hf, hb, hc, har, hcf, hph, -, -⟩ := stepUnmatched_some hstep
  exact ⟨hb ▸ hf ▸ h.1, hc ▸ hf ▸ h.2.1, har ▸ hf ▸ h.2.2.1,
    hcf ▸ hf ▸ h.2.2.2.1, hph ▸ hc ▸ h.2.2.2.2⟩

/-- One processed frame preserves the parallel-sequence invariant for every
active track. -/
theorem wfTrack_processFrame (p : TrackingParams) (st : PipelineState)
    (blobs : List Blob) (fi : ℕ) (h : ∀ t ∈ st.active, wfTrack t) :
    ∀ t ∈ (processFrame p st blobs fi).active, wfTrack t := by
  intro t ht
  simp only [processFrame, List.mem_append] at ht
  rcases ht with ht | ht
  · rcases match_output_origin ht with ⟨t0, ht0, hstep⟩ | ⟨t0, ht0, b, hb, heq⟩
    · exact wfTrack_stepUnmatched hstep (h t0 ht0)
    · exact heq ▸ wfTrack_applyMatch (h t0 ht0) b fi
  · obtain ⟨pr, hpr, heq⟩ := List.mem_map.1 ht
    exact heq ▸ wfTrack_mkNewTrack _ _ _

/-- Claim C9: throughout the whole frame loop, every active track keeps its
five parallel sequences (frames, bboxes, centroids, areas, confidences) at
equal length, with the position history equal to the centroid sequence,
element for element. -/
theorem parallel_sequences_invariant (p : TrackingParams) (st : PipelineState)
    (framesBlobs : List (List Blob)) (fi : ℕ)
    (h : ∀ t ∈ st.active, wfTrack t) :
    ∀ t ∈ (runFrames p st framesBlobs fi).active, wfTrack t := by
  induction framesBlobs generalizing st fi with
  | nil => simpa [runFrames] using h
  | cons bs rest ih =>
    simp only [runFrames]
    exact ih _ _ (wfTrack_processFrame p st bs fi h)

/-- Blob fed to the pipeline in the C9 witness. -/
def trailWitnessBlob : Blob :=
  { frame_idx := 0, bbox := (2, 2, 4, 4), centroid := (12, 12), area := 60,
    circularity := 1, aspect_rat := 1 }

/-- Witness for C9: a two-frame run (one detection, then none) from the empty
initial state keeps the invariant for every active track. -/
theorem parallel_sequences_invariant_witness :
    (∀ t ∈ (PipelineState.mk [] [] 1).active, wfTrack t) ∧
      ∀ t ∈ (runFrames {} (PipelineState.mk [] [] 1)
        [[trailWitnessBlob], []] 0).active, wfTrack t :=
  ⟨by simp, parallel_sequences_invariant {} (PipelineState.mk [] [] 1)
    [[trailWitnessBlob], []] 0 (by simp)⟩

/-!
### Last-known-position lifecycle (claim C10)
-/

/-- Claim C10: a newly created track has no last known position, is not
resting and has no rest ROI; the unmatched update never assigns the last
known position (only the matched update does); a track without a last known
position survives an unmatched round with its resting flag and rest ROI
untouched; and an unmatched track survives whenever the incremented counter
is within the skip budget. -/
theorem last_known_position_lifecycle :
    (∀ (tid fi : ℕ) (b : Blob),
        (mkNewTrack tid fi b).last_known_position = none ∧
          (mkNewTrack tid fi b).is_resting = false ∧
          (mkNewTrack tid fi b).rest_roi = none) ∧
      (∀ (p : TrackingParams) (t u : Track), stepUnmatched p t = some u →
        u.last_known_position = t.last_known_position) ∧
      (∀ (p : TrackingParams) (t u : Track), t.last_known_position = none →
        stepUnmatched p t = some u →
          u.last_known_position = none ∧ u.is_resting = t.is_resting ∧
            u.rest_roi = t.rest_roi) ∧
      (∀ (p : TrackingParams) (t : Track),
        t.frames_since_detection + 1 ≤ p.max_skip_frames →
          (stepUnmatched p t).isSome = true) := by
  refine ⟨fun tid fi b => ⟨rfl, rfl, rfl⟩, ?_, ?_, ?_⟩
  · intro p t u hstep
    exact (stepUnmatched_some hstep).2.2.2.1
  · intro p t u hnone hstep
    obtain ⟨-, -, -, hpos, -, -, -, -, -, -, -, hfix⟩ := stepUnmatched_some hstep
    exact ⟨hpos.trans hnone, hfix hnone⟩
  · intro p t hb
    unfold stepUnmatched
    rw [if_pos hb]
    split <;> rfl

/-- Blob creating the track for the C10 witness. -/
def lifecycleBlob : Blob :=
  { frame_idx := 2, bbox := (0, 0, 3, 3), centroid := (20, 20), area := 45,
    circularity := 1, aspect_rat := 1 }

/-- The C10 witness track: freshly created, so no last known position. -/
def lifecycleTrack : Track := mkNewTrack 4 2 lifecycleBlob

/-- `lifecycleTrack` after one unmatched round. -/
def lifecycleUpdated : Track := { lifecycleTrack with frames_since_detection := 1 }

/-- Witness for C10 at a concrete fresh track and unmatched round. -/
theorem last_known_position_lifecycle_witness :
    ((mkNewTrack 4 2 lifecycleBlob).last_known_position = none ∧
        (mkNewTrack 4 2 lifecycleBlob).is_resting = false ∧
        (mkNewTrack 4 2 lifecycleBlob).rest_roi = none) ∧
      stepUnmatched ({} : TrackingParams) lifecycleTrack = some lifecycleUpdated ∧
      lifecycleUpdated.last_known_position = lifecycleTrack.last_known_position ∧
      (lifecycleUpdated.last_known_position = none ∧
        lifecycleUpdated.is_resting = lifecycleTrack.is_resting ∧
        lifecycleUpdated.rest_roi = lifecycleTrack.rest_roi) ∧
      (stepUnmatched ({} : TrackingParams) lifecycleTrack).isSome = true :=
  ⟨last_known_position_lifecycle.1 4 2 lifecycleBlob,
    by decide,
    last_known_position_lifecycle.2.1 {} lifecycleTrack lifecycleUpdated (by decide),
    last_known_position_lifecycle.2.2.1 {} lifecycleTrack lifecycleUpdated
      (by decide) (by decide),
    last_known_position_lifecycle.2.2.2 {} lifecycleTrack (by decide)⟩

/-!
### Fate of terminated tracks (claim C1)

In the source, `completed_tracks` is initialised before the frame loop
(v5 line 290) and is appended to only *after* the loop, when every still
active track is validated (v5 lines 376-378); a track whose incremented skip
counter exceeds the budget is simply not appended to `updated_tracks`
(v5 lines 681-690) and so vanishes from the pipeline state.
-/

/-- Blob whose track is terminated mid-video in the C1 counterexample. -/
def droppedBlob : Blob :=
  { frame_idx := 0, bbox := (0, 0, 4, 4), centroid := (10, 10), area := 50,
    circularity := 1, aspect_rat := 1 }

/-- Tracking parameters with a zero skip budget: a single skipped frame
terminates a track. -/
def zeroSkipParams : TrackingParams :=
  { max_distance := 50, max_skip_frames := 0, rest_zone_radius := 100 }

/-- The pipeline state at the start of the video (v5 lines 289-291). -/
def initialPipelineState : PipelineState :=
  { active := [], completed := [], next_track_id := 1 }

/-- Counterexample to claim C1 as stated: with a zero skip budget, after
frame 0 one track (id 1) has been accumulated, and on frame 1 (no blobs) its
skip counter exceeds the budget.  The track does not move to the completed
pool — the completed pool stays empty — and the final returned track list is
empty: the accumulated track is discarded, not validated and returned. -/
theorem terminated_track_discarded_counterexample :
    (runFrames zeroSkipParams initialPipelineState [[droppedBlob]] 0).active.map
        Track.track_id = [1] ∧
      (runFrames zeroSkipParams initialPipelineState [[droppedBlob], []] 0).active = [] ∧
      (runFrames zeroSkipParams initialPipelineState [[droppedBlob], []] 0).completed = [] ∧
      finalTrackIds (runFrames zeroSkipParams initialPipelineState
        [[droppedBlob], []] 0) = [] := by
  refine ⟨?_, ?_, ?_, ?_⟩ <;> decide

/-- The per-frame loop never adds to the completed pool. -/
theorem runFrames_completed (p : TrackingParams) (framesBlobs : List (List Blob)) :
    ∀ (st : PipelineState) (fi : ℕ),
      (runFrames p st framesBlobs fi).completed = st.completed := by
  induction framesBlobs with
  | nil => intro st fi; rfl
  | cons bs rest ih =>
    intro st fi
    simp only [runFrames]
    exact ih _ _

/-- Every track surviving a matching round keeps the id of some input
track. -/
theorem match_output_ids {blobs : List Blob} {active : List Track} {fi : ℕ}
    {p : TrackingParams} :
    ∀ u ∈ (match_blobs_to_tracks blobs active fi p).1,
      ∃ t ∈ active, u.track_id = t.track_id := by
  intro u hu
  rcases match_output_origin hu with ⟨t, ht, hstep⟩ | ⟨t, ht, b, hb, heq⟩
  · exact ⟨t, ht, (stepUnmatched_some hstep).2.2.1⟩
  · exact ⟨t, ht, heq ▸ rfl⟩

/-- After one processed frame, every active track either inherits the id of a
previously active track or carries a freshly allocated id. -/
theorem processFrame_id_bound (p : TrackingParams) (st : PipelineState)
    (blobs : List Blob) (fi : ℕ) :
    ∀ u ∈ (processFrame p st blobs fi).active,
      (∃ t ∈ st.active, u.track_id = t.track_id) ∨
        st.next_track_id ≤ u.track_id := by
  intro u hu
  simp only [processFrame, List.mem_append] at hu
  rcases hu with hu | hu
  · exact Or.inl (match_output_ids u hu)
  · obtain ⟨pr, hpr, heq⟩ := List.mem_map.1 hu
    exact Or.inr (heq ▸ Nat.le_add_right _ _)

/-- An id absent from the active set and below the id counter never
reappears in the active set. -/
theorem runFrames_id_gone (p : TrackingParams) (framesBlobs : List (List Blob)) :
    ∀ (st : PipelineState) (fi tid : ℕ),
      tid ∉ st.active.map Track.track_id → tid < st.next_track_id →
        tid ∉ (runFrames p st framesBlobs fi).active.map Track.track_id ∧
          tid < (runFrames p st framesBlobs fi).next_track_id := by
  induction framesBlobs with
  | nil => intro st fi tid h1 h2; exact ⟨h1, h2⟩
  | cons bs rest ih =>
    intro st fi tid h1 h2
    simp only [runFrames]
    apply ih
    · intro hmem
      obtain ⟨u, hu, hid⟩ := List.mem_map.1 hmem
      rcases processFrame_id_bound p st bs fi u hu with ⟨t, ht, heq⟩ | hge
      · exact h1 (List.mem_map.2 ⟨t, ht, by rw [← heq]; exact hid⟩)
      · omega
    · simp only [processFrame]
      omega

/-- Claim C1 (amended): a track whose skip counter exceeds the budget leaves
the active set permanently, but it is *not* moved to the completed pool and
does not appear in the final returned track list — the per-frame loop never
adds to the completed pool, the unmatched update drops over-budget tracks,
and an id that has left the active set (and is below the id counter) is
absent from the final returned list; only the tracks still active after the
last frame are validated and returned. -/
theorem terminated_track_not_returned (p : TrackingParams) (st : PipelineState)
    (framesBlobs : List (List Blob)) (fi : ℕ) :
    (runFrames p st framesBlobs fi).completed = st.completed ∧
      (∀ t : Track, p.max_skip_frames < t.frames_since_detection + 1 →
        stepUnmatched p t = none) ∧
      (∀ tid : ℕ, tid ∉ st.active.map Track.track_id →
        tid ∉ st.completed.map Track.track_id → tid < st.next_track_id →
          tid ∉ finalTrackIds (runFrames p st framesBlobs fi)) := by
  refine ⟨runFrames_completed p framesBlobs st fi, ?_, ?_⟩
  · intro t h
    exact (stepUnmatched_none_iff p t).2 h
  · intro tid h1 h2 h3 hmem
    have hgone := runFrames_id_gone p framesBlobs st fi tid h1 h3
    unfold finalTrackIds at hmem
    rw [List.map_append, List.mem_append, runFrames_completed p framesBlobs st fi] at hmem
    rcases hmem with hmem | hmem
    · exact h2 hmem
    · exact hgone.1 hmem

/-- State for the C1 witness: no tracks, id counter at 5. -/
def haltedPipelineState : PipelineState :=
  { active := [], completed := [], next_track_id := 5 }

/-- Witness for the amended C1: a departed id (3) stays out of the final
returned track list of a concrete one-frame run. -/
theorem terminated_track_not_returned_witness :
    (3 ∉ haltedPipelineState.active.map Track.track_id) ∧
      (3 ∉ haltedPipelineState.completed.map Track.track_id) ∧
      3 < haltedPipelineState.next_track_id ∧
      3 ∉ finalTrackIds (runFrames {} haltedPipelineState [[]] 0) :=
  ⟨by decide, by decide, by decide,
    (terminated_track_not_returned {} haltedPipelineState [[]] 0).2.2 3
      (by decide) (by decide) (by decide)⟩

/-!
### Shadow-reflection coupling (`find_coupled_blobs`, v5 lines 515-559)
-/

/-- Candidate (dark index, bright index, squared distance) pairs within the
coupling distance, enumerated in the source's nested loop order
(v5 lines 527-531). -/
def couplingCandidatePairs (dark_blobs bright_blobs : List Blob)
    (p : DetectionParams) : List (ℕ × ℕ × ℚ) :=
  (List.range dark_blobs.length).flatMap (fun i =>
    (List.range bright_blobs.length).filterMap (fun j =>
      let d := distSq (dark_blobs.getD i default).centroid
        ((bright_blobs.getD j default).centroid)
      if d ≤ p.coupling_distance ^ 2 then some (i, j, d) else none))

/-- Greedily matched (dark index, bright index) pairs in ascending distance
order (v5 lines 532-542), via the same greedy loop as track matching. -/
def coupledIndexPairs (dark_blobs bright_blobs : List Blob)
    (p : DetectionParams) : List (ℕ × ℕ) :=
  greedyAssign (sortPairs (couplingCandidatePairs dark_blobs bright_blobs p)) [] []

/-- Construction of a coupled blob from the matched dark blob and the bright
blob's index (v5 lines 546-554). -/
def mkCoupledBlob (p : DetectionParams) (dark : Blob) (bright_idx : ℕ) : Blob :=
  { frame_idx := dark.frame_idx, bbox := dark.bbox, centroid := dark.centroid,
    area := dark.area, circularity := dark.circularity,
    aspect_rat := Blob.aspect_rat dark,
    confidence := dark.confidence * p.coupling_boost,
    blob_type := "coupled", coupled_with := some bright_idx }

/-- `find_coupled_blobs` (v5 lines 515-559): returns the coupled blobs and
the residual uncoupled dark and bright blobs. -/
def find_coupled_blobs (dark_blobs bright_blobs : List Blob)
    (p : DetectionParams) : List Blob × List Blob × List Blob :=
  if dark_blobs.length = 0 ∨ bright_blobs.length = 0 then
    ([], dark_blobs, bright_blobs)
  else
    let pairs := coupledIndexPairs dark_blobs bright_blobs p
    let matched_dark := pairs.map Prod.fst
    let matched_bright := pairs.map (fun pr => pr.2)
    (pairs.map (fun pr => mkCoupledBlob p (dark_blobs.getD pr.1 default) pr.2),
     ((List.range dark_blobs.length).filter (fun i => i ∉ matched_dark)).map
       (fun i => dark_blobs.getD i default),
     ((List.range bright_blobs.length).filter (fun j => j ∉ matched_bright)).map
       (fun j => bright_blobs.getD j default))

/-- Coupling candidate pairs index into the dark and bright lists. -/
theorem couplingCandidatePairs_mem_lt {p : DetectionParams}
    {dark_blobs bright_blobs : List Blob} {i j : ℕ} {d : ℚ}
    (h : (i, j, d) ∈ couplingCandidatePairs dark_blobs bright_blobs p) :
    i < dark_blobs.length ∧ j < bright_blobs.length := by
  simp only [couplingCandidatePairs, List.mem_flatMap, List.mem_filterMap,
    List.mem_range] at h
  obtain ⟨di, hdi, bj, hbj, hif⟩ := h
  split at hif
  · simp only [Option.some.injEq, Prod.mk.injEq] at hif
    obtain ⟨h1, h2, -⟩ := hif
    exact ⟨h1 ▸ hdi, h2 ▸ hbj⟩
  · exact absurd hif (by simp)

/-- The dark blob paired 30 pixels away from a bright blob in the C7
scenario. -/
def scenarioDark : Blob :=
  { frame_idx := 0, bbox := (4, 4, 6, 6), centroid := (0, 0), area := 80,
    circularity := 1, aspect_rat := 1, confidence := 1, blob_type := "dark" }

/-- The bright blob of the C7 scenario, 30 pixels from the dark blob. -/
def scenarioBright : Blob :=
  { frame_idx := 0, bbox := (30, 4, 5, 5), centroid := (30, 0), area := 70,
    circularity := 1, aspect_rat := 1, confidence := 1, blob_type := "bright" }

/-- Concrete evaluation of the C7 coupling scenario: one dark and one bright
blob 30 pixels apart under the default coupling distance 100 produce one
coupled blob and no residual uncoupled blobs. -/
theorem scenario_coupling_eq :
    find_coupled_blobs [scenarioDark] [scenarioBright] {} =
      ([mkCoupledBlob {} scenarioDark 0], [], []) := by
  have hdist : distSq scenarioDark.centroid scenarioBright.centroid = 900 := by
    norm_num [distSq, scenarioDark, scenarioBright]
  have hcand : couplingCandidatePairs [scenarioDark] [scenarioBright] {} =
      [(0, 0, 900)] := by
    norm_num [couplingCandidatePairs, show List.range 1 = [0] from rfl,
      List.filterMap_cons, hdist]
  have hsort : sortPairs [((0 : ℕ), (0 : ℕ), (900 : ℚ))] = [(0, 0, 900)] := by
    simp [sortPairs]
  have hgreedy : greedyAssign [((0 : ℕ), (0 : ℕ), (900 : ℚ))] [] [] = [(0, 0)] := by
    simp [greedyAssign]
  unfold find_coupled_blobs
  rw [if_neg (by simp)]
  simp only [coupledIndexPairs, hcand, hsort, hgreedy]
  simp

/-- Claim C7: every coupled blob inherits the paired dark blob's frame index,
bounding box, centroid, area, circularity and aspect ratio, has confidence
equal to the dark blob's confidence times the coupling boost, and records
the bright blob's index; and in the concrete scenario of one dark and one
bright blob 30 pixels apart under coupling distance 100, the result is
exactly one coupled blob and no residual uncoupled blobs. -/
theorem coupled_blob_inherits_dark (dark_blobs bright_blobs : List Blob)
    (p : DetectionParams) (cb : Blob)
    (hcb : cb ∈ (find_coupled_blobs dark_blobs bright_blobs p).1) :
    (∃ i j, (i, j) ∈ coupledIndexPairs dark_blobs bright_blobs p ∧
      i < dark_blobs.length ∧ j < bright_blobs.length ∧
      cb.frame_idx = (dark_blobs.getD i default).frame_idx ∧
      cb.bbox = (dark_blobs.getD i default).bbox ∧
      cb.centroid = (dark_blobs.getD i default).centroid ∧
      cb.area = (dark_blobs.getD i default).area ∧
      cb.circularity = (dark_blobs.getD i default).circularity ∧
      cb.aspect_rat = Blob.aspect_rat (dark_blobs.getD i default) ∧
      cb.confidence = (dark_blobs.getD i default).confidence * p.coupling_boost ∧
      cb.blob_type = "coupled" ∧ cb.coupled_with = some j) ∧
      find_coupled_blobs [scenarioDark] [scenarioBright] {} =
        ([mkCoupledBlob {} scenarioDark 0], [], []) := by
  constructor
  · unfold find_coupled_blobs at hcb
    split at hcb
    · simp at hcb
    · obtain ⟨pr, hpr, heq⟩ := List.mem_map.1 hcb
      obtain ⟨i, j⟩ := pr
      obtain ⟨d', hd'⟩ := greedyAssign_mem hpr
      have hcand : (i, j, d') ∈ couplingCandidatePairs dark_blobs bright_blobs p :=
        (List.mergeSort_perm (couplingCandidatePairs dark_blobs bright_blobs p)
          _).mem_iff.1 hd'
      obtain ⟨hilt, hjlt⟩ := couplingCandidatePairs_mem_lt hcand
      exact ⟨i, j, hpr, hilt, hjlt, by rw [← heq]; rfl, by rw [← heq]; rfl,
        by rw [← heq]; rfl, by rw [← heq]; rfl, by rw [← heq]; rfl,
        by rw [← heq]; rfl, by rw [← heq]; rfl, by rw [← heq]; rfl,
        by rw [← heq]; rfl⟩
  · exact scenario_coupling_eq

/-- Witness for C7: the coupled blob of the concrete scenario. -/
theorem coupled_blob_inherits_dark_witness :
    (mkCoupledBlob {} scenarioDark 0) ∈
        (find_coupled_blobs [scenarioDark] [scenarioBright] {}).1 ∧
      ((∃ i j, (i, j) ∈ coupledIndexPairs [scenarioDark] [scenarioBright] {} ∧
        i < [scenarioDark].length ∧ j < [scenarioBright].length ∧
        (mkCoupledBlob {} scenarioDark 0).frame_idx =
          ([scenarioDark].getD i default).frame_idx ∧
        (mkCoupledBlob {} scenarioDark 0).bbox = ([scenarioDark].getD i default).bbox ∧
        (mkCoupledBlob {} scenarioDark 0).centroid =
          ([scenarioDark].getD i default).centroid ∧
        (mkCoupledBlob {} scenarioDark 0).area = ([scenarioDark].getD i default).area ∧
        (mkCoupledBlob {} scenarioDark 0).circularity =
          ([scenarioDark].getD i default).circularity ∧
        (mkCoupledBlob {} scenarioDark 0).aspect_rat =
          Blob.aspect_rat ([scenarioDark].getD i default) ∧
        (mkCoupledBlob {} scenarioDark 0).confidence =
          ([scenarioDark].getD i default).confidence *
            ({} : DetectionParams).coupling_boost ∧
        (mkCoupledBlob {} scenarioDark 0).blob_type = "coupled" ∧
        (mkCoupledBlob {} scenarioDark 0).coupled_with = some j) ∧
        find_coupled_blobs [scenarioDark] [scenarioBright] {} =
          ([mkCoupledBlob {} scenarioDark 0], [], [])) :=
  ⟨by rw [scenario_coupling_eq]; exact List.mem_singleton_self _,
    coupled_blob_inherits_dark [scenarioDark] [scenarioBright] {}
      (mkCoupledBlob {} scenarioDark 0)
      (by rw [scenario_coupling_eq]; exact List.mem_singleton_self _)⟩

/-!
### Duplicate suppression in `detect_blobs` (claim C5, v5 lines 562-597)
-/

/-- The duplicate-removal loop of `detect_blobs` (v5 lines 585-595): each
standard blob is appended to the accumulated list unless its centroid is
strictly within 20 pixels (squared distance `20 ^ 2`) of some blob already in
that list — which includes the standard blobs accepted earlier in the same
loop. -/
def addStandardBlobs : List Blob → List Blob → List Blob
  | all_blobs, [] => all_blobs
  | all_blobs, std :: rest =>
    if ∃ ex ∈ all_blobs, distSq std.centroid ex.centroid < 20 ^ 2 then
      addStandardBlobs all_blobs rest
    else
      addStandardBlobs (all_blobs ++ [std]) rest

/-- The post-segmentation combination stage of `detect_blobs`
(v5 lines 566-597): couple the dark and bright blobs, keep the coupled blobs
plus — unless coupling is required — the uncoupled dark blobs, then run the
duplicate-removal loop over the standard blobs.  Uncoupled bright blobs are
never added. -/
def detect_blobs_combine (dark_blobs bright_blobs standard_blobs : List Blob)
    (p : DetectionParams) : List Blob :=
  let fc := find_coupled_blobs dark_blobs bright_blobs p
  let all_blobs := fc.1 ++ (if p.require_coupling = false then fc.2.1 else [])
  addStandardBlobs all_blobs standard_blobs

/-- The amended duplicate-suppression contract, stated in the spec's terms: a
standard blob is kept exactly when its centroid is at distance at least 20
pixels from every *already-accepted* blob — the initially accepted blobs and
every previously kept standard blob. -/
def keptStandard (accepted : List Blob) : List Blob → List Blob
  | [] => []
  | std :: rest =>
    if ∃ ex ∈ accepted, distSq std.centroid ex.centroid < 20 ^ 2 then
      keptStandard accepted rest
    else std :: keptStandard (accepted ++ [std]) rest

/-- Two standard blobs 5 pixels apart, far from everything else. -/
def stdBlobA : Blob :=
  { frame_idx := 0, bbox := (0, 0, 5, 5), centroid := (0, 0), area := 40,
    circularity := 1, aspect_rat := 1 }

/-- The second standard blob; within 20 pixels of `stdBlobA` only. -/
def stdBlobB : Blob :=
  { frame_idx := 0, bbox := (5, 0, 5, 5), centroid := (5, 0), area := 42,
    circularity := 1, aspect_rat := 1 }

/-- Counterexample to claim C5 as stated: with no dark, bright or coupled
blobs at all, the second of two standard blobs 5 pixels apart is discarded —
even though its centroid is not within 20 pixels of any accepted dark,
bright or coupled blob (there are none), so the claim's "every other
standard blob is kept" fails. -/
theorem duplicate_suppression_counterexample :
    detect_blobs_combine [] [] [stdBlobA, stdBlobB] {} = [stdBlobA] ∧
      stdBlobB ∉ detect_blobs_combine [] [] [stdBlobA, stdBlobB] {} := by
  have hfc : find_coupled_blobs [] [] {} = ([], [], []) := rfl
  have hnear : distSq stdBlobB.centroid stdBlobA.centroid < 20 ^ 2 := by
    norm_num [distSq, stdBlobA, stdBlobB]
  have heq : detect_blobs_combine [] [] [stdBlobA, stdBlobB] {} = [stdBlobA] := by
    unfold detect_blobs_combine
    rw [hfc]
    simp only [addStandardBlobs]
    rw [if_neg (by simp), if_pos ⟨stdBlobA, by simp, hnear⟩]
    rfl
  refine ⟨heq, ?_⟩
  rw [heq]
  intro hmem
  have hba : stdBlobB = stdBlobA := by simpa using hmem
  exact absurd hba (by decide)

/-- The duplicate-removal loop appends exactly the standard blobs kept by the
`keptStandard` contract. -/
theorem addStandardBlobs_eq (stds : List Blob) : ∀ accepted : List Blob,
    addStandardBlobs accepted stds = accepted ++ keptStandard accepted stds ∧
      List.Sublist (keptStandard accepted stds) stds := by
  induction stds with
  | nil =>
    intro acc
    exact ⟨by simp [addStandardBlobs, keptStandard], by simp [keptStandard]⟩
  | cons std rest ih =>
    intro acc
    simp only [addStandardBlobs, keptStandard]
    by_cases hdup : ∃ ex ∈ acc, distSq std.centroid ex.centroid < 20 ^ 2
    · rw [if_pos hdup, if_pos hdup]
      exact ⟨(ih acc).1, (ih acc).2.cons std⟩
    · rw [if_neg hdup, if_neg hdup]
      refine ⟨?_, (ih (acc ++ [std])).2.cons₂ std⟩
      rw [(ih (acc ++ [std])).1]
      simp

/-- Claim C5 (amended): the duplicate-removal loop keeps the accumulated list
as a prefix and appends exactly the standard blobs whose centroid is at
distance 20 pixels or more from every already-accepted blob, where the
accepted blobs are the initially accumulated ones — the coupled blobs plus,
when coupling is not required, the uncoupled dark blobs, never the bright
blobs — together with the standard blobs accepted earlier in the same loop;
all other standard blobs are discarded (one discarded at exact distance 20
is kept, the comparison being strict). -/
theorem duplicate_suppression (accepted stds : List Blob) :
    (addStandardBlobs accepted stds = accepted ++ keptStandard accepted stds ∧
      List.Sublist (keptStandard accepted stds) stds) ∧
      ∀ (d b s : List Blob) (p : DetectionParams),
        detect_blobs_combine d b s p =
          ((find_coupled_blobs d b p).1 ++
              (if p.require_coupling = false then (find_coupled_blobs d b p).2.1
                else [])) ++
            keptStandard ((find_coupled_blobs d b p).1 ++
              (if p.require_coupling = false then (find_coupled_blobs d b p).2.1
                else [])) s := by
  refine ⟨addStandardBlobs_eq stds accepted, ?_⟩
  intro d b s p
  unfold detect_blobs_combine
  exact (addStandardBlobs_eq s _).1

/-!
### Order-independence of coupling (claim C6)

The greedy coupling result is compared across permutations of the input
lists at the level of blob *values*: the source's index pairs are mapped to
the (dark blob, bright blob) pairs they denote.
-/

/-- All dark-bright squared centroid distances, one entry per ordered pair of
list occurrences.  The claim's hypothesis — no two dark-bright distances are
exactly equal — is `Nodup` of this list. -/
def pairDists (dark_blobs bright_blobs : List Blob) : List ℚ :=
  dark_blobs.flatMap (fun d =>
    bright_blobs.map (fun b => distSq d.centroid b.centroid))

/-- The coupled pairs produced by `find_coupled_blobs` (its `coupled_pairs`
list, v5 lines 534-542), as (dark blob, bright blob) values. -/
def coupledValuePairs (dark_blobs bright_blobs : List Blob)
    (p : DetectionParams) : List (Blob × Blob) :=
  (coupledIndexPairs dark_blobs bright_blobs p).map
    (fun pr => (dark_blobs.getD pr.1 default, bright_blobs.getD pr.2 default))

/-- A candidate triple with its indices replaced by the blobs they denote. -/
def valueTriple (dark_blobs bright_blobs : List Blob) (pr : ℕ × ℕ × ℚ) :
    Blob × Blob × ℚ :=
  (dark_blobs.getD pr.1 default, bright_blobs.getD pr.2.1 default, pr.2.2)

/-- The candidate pairs of `couplingCandidatePairs`, expressed directly over
blob values. -/
def couplingValueCandidates (dark_blobs bright_blobs : List Blob)
    (p : DetectionParams) : List (Blob × Blob × ℚ) :=
  dark_blobs.flatMap (fun db => bright_blobs.filterMap (fun bb =>
    if distSq db.centroid bb.centroid ≤ p.coupling_distance ^ 2 then
      some (db, bb, distSq db.centroid bb.centroid) else none))

/-- The greedy assignment loop acting on value triples. -/
def greedyAssignV :
    List (Blob × Blob × ℚ) → List Blob → List Blob → List (Blob × Blob)
  | [], _, _ => []
  | (x, y, _) :: rest, mx, my =>
    if x ∉ mx ∧ y ∉ my then (x, y) :: greedyAssignV rest (x :: mx) (y :: my)
    else greedyAssignV rest mx my

/-- Enumerating a list through `range`/`getD` is the list itself
(`flatMap` version). -/
theorem flatMap_range_getD {α β : Type _} (dflt : α) (f : α → List β) :
    ∀ l : List α,
      (List.range l.length).flatMap (fun i => f (l.getD i dflt)) = l.flatMap f := by
  intro l
  induction l with
  | nil => rfl
  | cons hd tl ih =>
    rw [List.length_cons, List.range_succ_eq_map, List.flatMap_cons,
      List.flatMap_map, List.flatMap_cons]
    simp only [List.getD_cons_zero, List.getD_cons_succ]
    rw [ih]

/-- Enumerating a list through `range`/`getD` is the list itself
(`filterMap` version). -/
theorem filterMap_range_getD {α β : Type _} (dflt : α) (f : α → Option β) :
    ∀ l : List α,
      (List.range l.length).filterMap (fun j => f (l.getD j dflt)) = l.filterMap f := by
  intro l
  induction l with
  | nil => rfl
  | cons hd tl ih =>
    rw [List.length_cons, List.range_succ_eq_map, List.filterMap_cons,
      List.filterMap_map, List.filterMap_cons]
    simp only [Function.comp_def, List.getD_cons_zero, List.getD_cons_succ]
    rw [ih]

/-- Mapping the index candidates to values yields the value-level candidate
list. -/
theorem couplingCandidatePairs_map_value (dark_blobs bright_blobs : List Blob)
    (p : DetectionParams) :
    (couplingCandidatePairs dark_blobs bright_blobs p).map
        (valueTriple dark_blobs bright_blobs) =
      couplingValueCandidates dark_blobs bright_blobs p := by
  unfold couplingCandidatePairs couplingValueCandidates
  rw [List.map_flatMap,
    ← flatMap_range_getD default (fun db => bright_blobs.filterMap (fun bb =>
      if distSq db.centroid bb.centroid ≤ p.coupling_distance ^ 2 then
        some (db, bb, distSq db.centroid bb.centroid) else none)) dark_blobs]
  congr 1
  funext i
  rw [List.map_filterMap,
    ← filterMap_range_getD default (fun bb =>
      if distSq (dark_blobs.getD i default).centroid bb.centroid
          ≤ p.coupling_distance ^ 2 then
        some (dark_blobs.getD i default, bb,
          distSq (dark_blobs.getD i default).centroid bb.centroid)
      else none) bright_blobs]
  congr 1
  funext j
  show Option.map (valueTriple dark_blobs bright_blobs)
      (if distSq (dark_blobs.getD i default).centroid
          (bright_blobs.getD j default).centroid ≤ p.coupling_distance ^ 2 then
        some (i, j, distSq (dark_blobs.getD i default).centroid
          (bright_blobs.getD j default).centroid)
      else none) =
    (if distSq (dark_blobs.getD i default).centroid
        (bright_blobs.getD j default).centroid ≤ p.coupling_distance ^ 2 then
      some (dark_blobs.getD i default, bright_blobs.getD j default,
        distSq (dark_blobs.getD i default).centroid
          (bright_blobs.getD j default).centroid)
    else none)
  by_cases hcond : distSq (dark_blobs.getD i default).centroid
      (bright_blobs.getD j default).centroid ≤ p.coupling_distance ^ 2
  · rw [if_pos hcond, if_pos hcond]
    rfl
  · rw [if_neg hcond, if_neg hcond]
    rfl

/-- The value-level candidate list is permutation-congruent in both input
lists. -/
theorem couplingValueCandidates_perm {d₁ d₂ b₁ b₂ : List Blob}
    (p : DetectionParams) (hd : d₁.Perm d₂) (hb : b₁.Perm b₂) :
    (couplingValueCandidates d₁ b₁ p).Perm (couplingValueCandidates d₂ b₂ p) := by
  unfold couplingValueCandidates
  exact (List.Perm.flatMap_left d₁ (fun a _ => hb.filterMap _)).trans
    (hd.flatMap_right _)

/-- The distance list is permutation-congruent in both input lists. -/
theorem pairDists_perm {d₁ d₂ b₁ b₂ : List Blob} (hd : d₁.Perm d₂)
    (hb : b₁.Perm b₂) : (pairDists d₁ b₁).Perm (pairDists d₂ b₂) := by
  unfold pairDists
  exact (List.Perm.flatMap_left d₁ (fun a _ => hb.map _)).trans (hd.flatMap_right _)

/-- A guarded `filterMap` is a sublist of the corresponding `map`. -/
theorem filterMap_if_map_sublist {α β : Type _} (c : α → Prop) [DecidablePred c]
    (f : α → β) : ∀ l : List α,
    List.Sublist (l.filterMap (fun x => if c x then some (f x) else none))
      (l.map f) := by
  intro l
  induction l with
  | nil => simp
  | cons hd tl ih =>
    rw [List.filterMap_cons, List.map_cons]
    by_cases hc : c hd
    · rw [if_pos hc]
      exact ih.cons₂ (f hd)
    · rw [if_neg hc]
      exact ih.cons (f hd)

/-- `flatMap` is monotone with respect to pointwise sublists. -/
theorem sublist_flatMap {α β : Type _} (f g : α → List β)
    (h : ∀ a, List.Sublist (f a) (g a)) : ∀ l : List α,
    List.Sublist (l.flatMap f) (l.flatMap g) := by
  intro l
  induction l with
  | nil => simp
  | cons hd tl ih =>
    rw [List.flatMap_cons, List.flatMap_cons]
    exact (h hd).append ih

/-- The candidate distances are a sublist of all pairwise distances. -/
theorem couplingValueCandidates_keys_sublist (dark_blobs bright_blobs : List Blob)
    (p : DetectionParams) :
    List.Sublist ((couplingValueCandidates dark_blobs bright_blobs p).map
        (fun x => x.2.2))
      (pairDists dark_blobs bright_blobs) := by
  unfold couplingValueCandidates pairDists
  rw [List.map_flatMap]
  apply sublist_flatMap
  intro db
  rw [List.map_filterMap]
  have hfun : (fun bb : Blob =>
      ((if distSq db.centroid bb.centroid ≤ p.coupling_distance ^ 2 then
          some (db, bb, distSq db.centroid bb.centroid) else none).map
        (fun x : Blob × Blob × ℚ => x.2.2))) = fun bb =>
      if distSq db.centroid bb.centroid ≤ p.coupling_distance ^ 2 then
        some (distSq db.centroid bb.centroid) else none := by
    funext bb
    split
    · rfl
    · rfl
  rw [hfun]
  exact filterMap_if_map_sublist _ _ bright_blobs

/-- With all dark-bright distances distinct and at least one bright blob,
positions in the dark list with the same blob value coincide. -/
theorem pairDists_nodup_dark_inj {dark_blobs bright_blobs : List Blob}
    (h : (pairDists dark_blobs bright_blobs).Nodup) (hb : bright_blobs ≠ []) :
    ∀ i < dark_blobs.length, ∀ i' < dark_blobs.length,
      dark_blobs.getD i default = dark_blobs.getD i' default → i = i' := by
  intro i hi i' hi' heq
  by_contra hne
  have hpw : dark_blobs.Pairwise (Function.onFun List.Disjoint
      (fun d => bright_blobs.map (fun b => distSq d.centroid b.centroid))) :=
    (List.nodup_flatMap.1 h).2
  obtain ⟨b₀, hb₀⟩ := List.exists_mem_of_ne_nil bright_blobs hb
  rw [List.getD_eq_getElem _ _ hi, List.getD_eq_getElem _ _ hi'] at heq
  rcases Nat.lt_or_ge i i' with hlt | hge
  · have hdisj := List.pairwise_iff_getElem.1 hpw i i' hi hi' hlt
    rw [heq] at hdisj
    exact hdisj (List.mem_map_of_mem _ hb₀) (List.mem_map_of_mem _ hb₀)
  · have hlt : i' < i := lt_of_le_of_ne hge (fun hcc => hne hcc.symm)
    have hdisj := List.pairwise_iff_getElem.1 hpw i' i hi' hi hlt
    rw [heq] at hdisj
    exact hdisj (List.mem_map_of_mem _ hb₀) (List.mem_map_of_mem _ hb₀)

/-- With all dark-bright distances distinct and at least one dark blob,
positions in the bright list with the same blob value coincide. -/
theorem pairDists_nodup_bright_inj {dark_blobs bright_blobs : List Blob}
    (h : (pairDists dark_blobs bright_blobs).Nodup) (hd : dark_blobs ≠ []) :
    ∀ j < bright_blobs.length, ∀ j' < bright_blobs.length,
      bright_blobs.getD j default = bright_blobs.getD j' default → j = j' := by
  intro j hj j' hj' heq
  by_contra hne
  obtain ⟨d₀, hd₀⟩ := List.exists_mem_of_ne_nil dark_blobs hd
  have hinner : (bright_blobs.map
      (fun b => distSq d₀.centroid b.centroid)).Nodup :=
    (List.nodup_flatMap.1 h).1 d₀ hd₀
  have hpw : bright_blobs.Pairwise (fun b b' =>
      distSq d₀.centroid b.centroid ≠ distSq d₀.centroid b'.centroid) :=
    List.pairwise_map.1 hinner
  rw [List.getD_eq_getElem _ _ hj, List.getD_eq_getElem _ _ hj'] at heq
  rcases Nat.lt_or_ge j j' with hlt | hge
  · exact (List.pairwise_iff_getElem.1 hpw j j' hj hj' hlt) (by rw [heq])
  · have hlt : j' < j := lt_of_le_of_ne hge (fun hcc => hne hcc.symm)
    exact (List.pairwise_iff_getElem.1 hpw j' j hj' hj hlt) (by rw [heq])

/-- The greedy loop over index triples, mapped to values, agrees with the
value-level greedy loop, provided blob values determine indices. -/
theorem greedyAssign_map_value (fd fb : ℕ → Blob) (nd nb : ℕ)
    (injd : ∀ i < nd, ∀ i' < nd, fd i = fd i' → i = i')
    (injb : ∀ j < nb, ∀ j' < nb, fb j = fb j' → j = j') :
    ∀ (l : List (ℕ × ℕ × ℚ)) (mi mj : List ℕ),
      (∀ pr ∈ l, pr.1 < nd ∧ pr.2.1 < nb) →
      (∀ i ∈ mi, i < nd) → (∀ j ∈ mj, j < nb) →
      (greedyAssign l mi mj).map (fun pr => (fd pr.1, fb pr.2)) =
        greedyAssignV (l.map (fun pr => (fd pr.1, fb pr.2.1, pr.2.2)))
          (mi.map fd) (mj.map fb) := by
  intro l
  induction l with
  | nil => intro mi mj _ _ _; rfl
  | cons hd tl ih =>
    intro mi mj hbound hmi hmj
    obtain ⟨i, j, k⟩ := hd
    obtain ⟨hi, hj⟩ := hbound (i, j, k) (List.mem_cons_self _ _)
    rw [List.map_cons]
    simp only [greedyAssign, greedyAssignV]
    have hcond : (i ∉ mi ∧ j ∉ mj) ↔
        (fd i ∉ mi.map fd ∧ fb j ∉ mj.map fb) := by
      constructor
      · rintro ⟨h1, h2⟩
        refine ⟨fun hm => ?_, fun hm => ?_⟩
        · obtain ⟨i', hi', heq⟩ := List.mem_map.1 hm
          exact h1 ((injd i' (hmi i' hi') i hi heq) ▸ hi')
        · obtain ⟨j', hj', heq⟩ := List.mem_map.1 hm
          exact h2 ((injb j' (hmj j' hj') j hj heq) ▸ hj')
      · rintro ⟨h1, h2⟩
        exact ⟨fun hm => h1 (List.mem_map_of_mem fd hm),
          fun hm => h2 (List.mem_map_of_mem fb hm)⟩
    by_cases hc : i ∉ mi ∧ j ∉ mj
    · rw [if_pos hc, if_pos (hcond.1 hc), List.map_cons]
      congr 1
      exact ih (i :: mi) (j :: mj)
        (fun pr hpr => hbound pr (List.mem_cons_of_mem _ hpr))
        (fun i' hi' => by
          rcases List.mem_cons.1 hi' with hcc | hcc
          · exact hcc ▸ hi
          · exact hmi i' hcc)
        (fun j' hj' => by
          rcases List.mem_cons.1 hj' with hcc | hcc
          · exact hcc ▸ hj
          · exact hmj j' hcc)
    · rw [if_neg hc, if_neg (fun hcc => hc (hcond.2 hcc))]
      exact ih mi mj (fun pr hpr => hbound pr (List.mem_cons_of_mem _ hpr)) hmi hmj

/-- Members of the sorted coupling candidate list index into the inputs. -/
theorem sortPairs_coupling_bounds {dark_blobs bright_blobs : List Blob}
    {p : DetectionParams} :
    ∀ pr ∈ sortPairs (couplingCandidatePairs dark_blobs bright_blobs p),
      pr.1 < dark_blobs.length ∧ pr.2.1 < bright_blobs.length := by
  intro pr hpr
  obtain ⟨i, j, k⟩ := pr
  exact couplingCandidatePairs_mem_lt
    ((List.mergeSort_perm (couplingCandidatePairs dark_blobs bright_blobs p)
      _).mem_iff.1 hpr)

/-- `sortPairs` sorts by the distance component. -/
theorem sortPairs_pairwise (l : List (ℕ × ℕ × ℚ)) :
    (sortPairs l).Pairwise (fun a b => a.2.2 ≤ b.2.2) := by
  have h : (l.mergeSort (fun a b => decide (a.2.2 ≤ b.2.2))).Pairwise
      (fun a b => (decide (a.2.2 ≤ b.2.2) : Bool) = true) :=
    List.sorted_mergeSort
      (fun a b c h₁ h₂ => by
        simp only [decide_eq_true_eq] at h₁ h₂ ⊢
        exact le_trans h₁ h₂)
      (fun a b => by
        simp only [Bool.or_eq_true, decide_eq_true_eq]
        exact le_total a.2.2 b.2.2)
      l
  exact h.imp (by simp)

/-- Sorting the candidates is a permutation of the candidates. -/
theorem sortPairs_perm (l : List (ℕ × ℕ × ℚ)) : (sortPairs l).Perm l :=
  List.mergeSort_perm l _

/-- A `flatMap` of the constantly empty function is empty. -/
theorem flatMap_nil_fun {α β : Type _} :
    ∀ l : List α, l.flatMap (fun _ => ([] : List β)) = [] := by
  intro l
  induction l with
  | nil => rfl
  | cons hd tl ih => rw [List.flatMap_cons, ih]; rfl

/-- No dark blobs: no coupled pairs. -/
theorem coupledValuePairs_nil_left (bright_blobs : List Blob)
    (p : DetectionParams) : coupledValuePairs [] bright_blobs p = [] := by
  unfold coupledValuePairs coupledIndexPairs couplingCandidatePairs
  simp [sortPairs, greedyAssign]

/-- No bright blobs: no coupled pairs. -/
theorem coupledValuePairs_nil_right (dark_blobs : List Blob)
    (p : DetectionParams) : coupledValuePairs dark_blobs [] p = [] := by
  have hc : couplingCandidatePairs dark_blobs [] p = [] := by
    unfold couplingCandidatePairs
    simp [flatMap_nil_fun]
  unfold coupledValuePairs coupledIndexPairs
  rw [hc]
  simp [sortPairs, greedyAssign]

/-- With distinct distances, the sorted value candidates are strictly
increasing in the distance component. -/
theorem sortedValue_pairwise_lt {dark_blobs bright_blobs : List Blob}
    (p : DetectionParams) (hnd : (pairDists dark_blobs bright_blobs).Nodup) :
    ((sortPairs (couplingCandidatePairs dark_blobs bright_blobs p)).map
        (valueTriple dark_blobs bright_blobs)).Pairwise
      (fun a b => a.2.2 < b.2.2) := by
  have hle : ((sortPairs (couplingCandidatePairs dark_blobs bright_blobs p)).map
      (valueTriple dark_blobs bright_blobs)).Pairwise
      (fun a b => a.2.2 ≤ b.2.2) :=
    List.pairwise_map.2 ((sortPairs_pairwise _).imp (fun h => h))
  have hcandkeys : ((couplingCandidatePairs dark_blobs bright_blobs p).map
      (fun pr : ℕ × ℕ × ℚ => pr.2.2)).Nodup := by
    have heq : (couplingCandidatePairs dark_blobs bright_blobs p).map
        (fun pr : ℕ × ℕ × ℚ => pr.2.2) =
        (couplingValueCandidates dark_blobs bright_blobs p).map
          (fun x : Blob × Blob × ℚ => x.2.2) := by
      rw [← couplingCandidatePairs_map_value, List.map_map]
      rfl
    rw [heq]
    exact List.Nodup.sublist
      (couplingValueCandidates_keys_sublist dark_blobs bright_blobs p) hnd
  have hsortkeys : ((sortPairs (couplingCandidatePairs dark_blobs bright_blobs p)).map
      (fun pr : ℕ × ℕ × ℚ => pr.2.2)).Nodup :=
    ((sortPairs_perm _).map _).nodup_iff.2 hcandkeys
  have hnodupmapped : (((sortPairs (couplingCandidatePairs dark_blobs bright_blobs p)).map
      (valueTriple dark_blobs bright_blobs)).map
        (fun x : Blob × Blob × ℚ => x.2.2)).Nodup := by
    rw [List.map_map]
    exact hsortkeys
  have hne := List.pairwise_map.1 hnodupmapped
  exact (hle.and hne).imp (fun hab => lt_of_le_of_ne hab.1 hab.2)

/-- The coupled value pairs are computed by the value-level greedy loop when
blob values determine indices. -/
theorem coupledValuePairs_eq_greedyV {dark_blobs bright_blobs : List Blob}
    (p : DetectionParams)
    (injd : ∀ i < dark_blobs.length, ∀ i' < dark_blobs.length,
      dark_blobs.getD i default = dark_blobs.getD i' default → i = i')
    (injb : ∀ j < bright_blobs.length, ∀ j' < bright_blobs.length,
      bright_blobs.getD j default = bright_blobs.getD j' default → j = j') :
    coupledValuePairs dark_blobs bright_blobs p =
      greedyAssignV
        ((sortPairs (couplingCandidatePairs dark_blobs bright_blobs p)).map
          (valueTriple dark_blobs bright_blobs)) [] [] := by
  unfold coupledValuePairs coupledIndexPairs
  have h := greedyAssign_map_value (fun i => dark_blobs.getD i default)
    (fun j => bright_blobs.getD j default) dark_blobs.length bright_blobs.length
    injd injb (sortPairs (couplingCandidatePairs dark_blobs bright_blobs p)) [] []
    sortPairs_coupling_bounds (by simp) (by simp)
  exact h

/-- Claim C6: when no two dark-bright centroid distances coincide, permuting
either input list of `find_coupled_blobs` leaves the sequence (hence the
set) of coupled (dark blob, bright blob) pairs unchanged. -/
theorem coupling_order_independent (p : DetectionParams)
    (d₁ b₁ d₂ b₂ : List Blob) (hd : d₁.Perm d₂) (hb : b₁.Perm b₂)
    (hnd : (pairDists d₁ b₁).Nodup) :
    coupledValuePairs d₁ b₁ p = coupledValuePairs d₂ b₂ p := by
  by_cases hbe : b₁ = []
  · have hb2 : b₂ = [] := List.Perm.eq_nil (hbe ▸ hb.symm)
    rw [hbe, hb2, coupledValuePairs_nil_right, coupledValuePairs_nil_right]
  by_cases hde : d₁ = []
  · have hd2 : d₂ = [] := List.Perm.eq_nil (hde ▸ hd.symm)
    rw [hde, hd2, coupledValuePairs_nil_left, coupledValuePairs_nil_left]
  have hbe₂ : b₂ ≠ [] := fun hcc => hbe (List.Perm.eq_nil (hcc ▸ hb))
  have hde₂ : d₂ ≠ [] := fun hcc => hde (List.Perm.eq_nil (hcc ▸ hd))
  have hnd₂ : (pairDists d₂ b₂).Nodup := (pairDists_perm hd hb).nodup_iff.1 hnd
  rw [coupledValuePairs_eq_greedyV p (pairDists_nodup_dark_inj hnd hbe)
      (pairDists_nodup_bright_inj hnd hde),
    coupledValuePairs_eq_greedyV p (pairDists_nodup_dark_inj hnd₂ hbe₂)
      (pairDists_nodup_bright_inj hnd₂ hde₂)]
  congr 1
  have p1 : ((sortPairs (couplingCandidatePairs d₁ b₁ p)).map
      (valueTriple d₁ b₁)).Perm (couplingValueCandidates d₁ b₁ p) := by
    rw [← couplingCandidatePairs_map_value]
    exact (sortPairs_perm _).map _
  have p2 : (couplingValueCandidates d₂ b₂ p).Perm
      ((sortPairs (couplingCandidatePairs d₂ b₂ p)).map (valueTriple d₂ b₂)) := by
    rw [← couplingCandidatePairs_map_value]
    exact ((sortPairs_perm _).map _).symm
  haveI : IsAntisymm (Blob × Blob × ℚ) (fun a b => a.2.2 < b.2.2) :=
    ⟨fun a b h₁ h₂ => absurd h₂ (not_lt.2 (le_of_lt h₁))⟩
  exact List.eq_of_perm_of_sorted
    ((p1.trans (couplingValueCandidates_perm p hd hb)).trans p2)
    (sortedValue_pairwise_lt p hnd) (sortedValue_pairwise_lt p hnd₂)

/-- First dark blob of the C6 witness. -/
def swapDarkA : Blob :=
  { frame_idx := 0, bbox := (0, 0, 4, 4), centroid := (0, 0), area := 50,
    circularity := 1, aspect_rat := 1, blob_type := "dark" }

/-- Second dark blob of the C6 witness. -/
def swapDarkB : Blob :=
  { frame_idx := 0, bbox := (7, 0, 4, 4), centroid := (7, 0), area := 55,
    circularity := 1, aspect_rat := 1, blob_type := "dark" }

/-- Bright blob of the C6 witness: distances to the two dark blobs are 3 and
4 pixels, distinct. -/
def swapBright : Blob :=
  { frame_idx := 0, bbox := (3, 0, 4, 4), centroid := (3, 0), area := 45,
    circularity := 1, aspect_rat := 1, blob_type := "bright" }

/-- Witness for C6: swapping the two dark blobs leaves the coupled value
pairs unchanged. -/
theorem coupling_order_independent_witness :
    ([swapDarkA, swapDarkB].Perm [swapDarkB, swapDarkA]) ∧
      (pairDists [swapDarkA, swapDarkB] [swapBright]).Nodup ∧
      coupledValuePairs [swapDarkA, swapDarkB] [swapBright] {} =
        coupledValuePairs [swapDarkB, swapDarkA] [swapBright] {} := by
  have hnd : (pairDists [swapDarkA, swapDarkB] [swapBright]).Nodup := by
    have h916 : pairDists [swapDarkA, swapDarkB] [swapBright] = [9, 16] := by
      norm_num [pairDists, distSq, swapDarkA, swapDarkB, swapBright,
        List.flatMap_cons]
    rw [h916]
    decide
  exact ⟨List.Perm.swap swapDarkB swapDarkA [], hnd,
    coupling_order_independent {} [swapDarkA, swapDarkB] [swapBright]
      [swapDarkB, swapDarkA] [swapBright]
      (List.Perm.swap swapDarkB swapDarkA []) (List.Perm.refl _) hnd⟩
